import Mathlib

/-!
# Verification of the MRPT `CFeature` visual-feature module

Shallow embedding of `src/libs/vision/include/mrpt/vision/CFeature.h`
(data model: `TFeatureType`, `TFeatureTrackStatus`, `TDescriptorType`,
`CFeature::TDescriptors`, `CFeature`, `CFeatureList`, `CMatchedFeatureList`).
Only the header is part of the source slice, so function bodies that the
header merely declares are modelled from the specification (each such
definition carries a doc comment starting `Modelled from the spec:`).
Inline bodies present in the header (`get_type`, the presence predicates,
the enum codes) are translated directly from the source.

Numeric conventions: C++ `float`/`double` become `ℚ` for the computable
core, with the final Euclidean distances (which involve a square root)
expressed in `ℝ`; `uint64_t`/`uint16_t`/`uint8_t` become `ℕ` (no
wrap-around arithmetic is performed on them in this module).
-/

namespace MRPTVision

/-- Source `enum TFeatureType` (CFeature.h): the detector that produced a
feature. -/
inductive TFeatureType where
  | featNotDefined
  | featKLT
  | featHarris
  | featBCD
  | featSIFT
  | featSURF
  | featBeacon
  | featFAST
deriving DecidableEq, Repr

/-- Numeric code of each `TFeatureType` enumerator, as assigned in the
source (`featNotDefined = -1`, then consecutive from `featKLT = 0`). -/
def TFeatureType.code : TFeatureType → Int
  | .featNotDefined => -1
  | .featKLT => 0
  | .featHarris => 1
  | .featBCD => 2
  | .featSIFT => 3
  | .featSURF => 4
  | .featBeacon => 5
  | .featFAST => 6

/-- Source `enum TFeatureTrackStatus`, generic enumerator `status_IDLE = 0`. -/
def status_IDLE : Int := 0

/-- Source `enum TFeatureTrackStatus`, generic enumerator `status_TRACKED = 5`. -/
def status_TRACKED : Int := 5

/-- Source `enum TFeatureTrackStatus`, generic enumerator `status_OOB = 1`. -/
def status_OOB : Int := 1

/-- Source `enum TFeatureTrackStatus`, generic enumerator `status_LOST = 10`. -/
def status_LOST : Int := 10

/-- Source `enum TFeatureTrackStatus`, KLT enumerator `statusKLT_IDLE = 0`. -/
def statusKLT_IDLE : Int := 0

/-- Source `enum TFeatureTrackStatus`, KLT enumerator `statusKLT_OOB = 1`
(source comment: value identical to `status_OOB`). -/
def statusKLT_OOB : Int := 1

/-- Source `enum TFeatureTrackStatus`, KLT enumerator `statusKLT_SMALL_DET = 2`. -/
def statusKLT_SMALL_DET : Int := 2

/-- Source `enum TFeatureTrackStatus`, KLT enumerator `statusKLT_LARGE_RESIDUE = 3`. -/
def statusKLT_LARGE_RESIDUE : Int := 3

/-- Source `enum TFeatureTrackStatus`, KLT enumerator `statusKLT_MAX_RESIDUE = 4`. -/
def statusKLT_MAX_RESIDUE : Int := 4

/-- Source `enum TFeatureTrackStatus`, KLT enumerator `statusKLT_TRACKED = 5`
(source comment: value identical to `status_TRACKED`). -/
def statusKLT_TRACKED : Int := 5

/-- Source `enum TFeatureTrackStatus`, KLT enumerator
`statusKLT_MAX_ITERATIONS = 6`. -/
def statusKLT_MAX_ITERATIONS : Int := 6

/-- Source `enum TDescriptorType` (CFeature.h): which descriptor a distance
computation should use; `descAny` means "any of the present descriptors". -/
inductive TDescriptorType where
  | descAny
  | descSIFT
  | descSURF
  | descSpinImages
  | descPolarImages
  | descLogPolarImages
deriving DecidableEq, Repr

/-- Numeric code (bit flag) of each `TDescriptorType` enumerator in the
source. -/
def TDescriptorType.code : TDescriptorType → Nat
  | .descAny => 0
  | .descSIFT => 1
  | .descSURF => 2
  | .descSpinImages => 4
  | .descPolarImages => 8
  | .descLogPolarImages => 16

/-- A `mrpt::math::CMatrix` (matrix of floats) embedded as a list of rows of
rationals. -/
abbrev Mat := List (List ℚ)

/-- Number of rows of a matrix, `size(m, 1)` in the source. -/
def matRows (m : Mat) : ℕ := m.length

/-- Number of columns of a matrix, `size(m, 2)` in the source (length of the
first row; well-formed matrices have all rows of this length). -/
def matCols (m : Mat) : ℕ := (m.headD []).length

/-- Row `i` of a matrix (empty row when out of range). -/
def rowGet (m : Mat) (i : ℕ) : List ℚ := m.getD i []

/-- Entry `(i, j)` of a matrix (`0` when out of range). -/
def entry (m : Mat) (i j : ℕ) : ℚ := (rowGet m i).getD j 0

/-- Source `struct CFeature::TDescriptors`: all the descriptors a feature may
have.  The flag `noRotationSearch` embeds the source field
`polarImgsNoRotation` (the spec calls it `noRotationSearch`): when true,
polar-image distance computations do not search over rotations. -/
structure TDescriptors where
  SIFT : List ℕ
  SURF : List ℚ
  SpinImg : List ℚ
  SpinImg_range_rows : ℕ
  PolarImg : Mat
  LogPolarImg : Mat
  noRotationSearch : Bool
deriving DecidableEq, Repr

/-- Source inline body: `hasDescriptorSIFT() { return !SIFT.empty(); }`. -/
def TDescriptors.hasDescriptorSIFT (d : TDescriptors) : Bool := !d.SIFT.isEmpty

/-- Source inline body: `hasDescriptorSURF() { return !SURF.empty(); }`. -/
def TDescriptors.hasDescriptorSURF (d : TDescriptors) : Bool := !d.SURF.isEmpty

/-- Source inline body: `hasDescriptorSpinImg() { return !SpinImg.empty(); }`. -/
def TDescriptors.hasDescriptorSpinImg (d : TDescriptors) : Bool := !d.SpinImg.isEmpty

/-- Source inline body: `hasDescriptorPolarImg() { return size(PolarImg,1)>0; }`. -/
def TDescriptors.hasDescriptorPolarImg (d : TDescriptors) : Bool :=
  decide (0 < matRows d.PolarImg)

/-- Source inline body: `hasDescriptorLogPolarImg() { return size(LogPolarImg,1)>0; }`. -/
def TDescriptors.hasDescriptorLogPolarImg (d : TDescriptors) : Bool :=
  decide (0 < matRows d.LogPolarImg)

/-- Source `class CFeature`: a 2-D image feature.  The image `patch` itself is
an external collaborator (`CImage`) and is not embedded; `patchSize` is. -/
structure CFeature where
  x : ℚ
  y : ℚ
  ID : ℕ
  patchSize : ℕ
  type : TFeatureType
  track_status : Int
  response : ℚ
  orientation : ℚ
  scale : ℚ
  IDSourceImage : ℕ
  descriptors : TDescriptors
deriving DecidableEq, Repr

/-- Source inline body: `CFeature::get_type() { return type; }`. -/
def CFeature.get_type (f : CFeature) : TFeatureType := f.type

/-- The error kinds of §7 of the spec, plus `NoDescriptorAvailable` (the
failure of `getFirstDescriptorAsMatrix`). -/
inductive VisionErr where
  | MissingDescriptor
  | DimensionMismatch
  | MissingPatch
  | EmptyCollection
  | NoDescriptorAvailable
deriving DecidableEq, Repr

/-- Squared Euclidean distance between matrix `a` and matrix `b` circularly
shifted by `s` rows: row `i` of `a` is compared against row `(i + s) mod
numRows` of `b` (so a zero distance at shift `s` means `b` holds row `i` of
`a` at its row `i + s`). -/
def shiftDistSq (a b : Mat) (s : ℕ) : ℚ :=
  ∑ i ∈ Finset.range (matRows a), ∑ j ∈ Finset.range (matCols a),
    (entry a i j - entry b ((i + s) % matRows a) j) ^ 2

/-- Modelled from the spec: the list of candidate row-shifts the rotation
search evaluates — every shift `0 .. n-1`, degenerating to the single shift
`0` when the no-rotation-search flag is set. -/
def polarShiftCandidates (n : ℕ) (dontShiftAngle : Bool) : List ℕ :=
  if dontShiftAngle then [0] else List.range n

/-- First-minimum selection: runs through the candidate `(index, value)`
pairs keeping the current best, replacing it only on a strictly smaller
value (so the earliest minimizing index wins). -/
def selectMinAux {α : Type} (best : α × ℚ) : List (α × ℚ) → α × ℚ
  | [] => best
  | p :: rest => selectMinAux (if p.2 < best.2 then p else best) rest

/-- Modelled from the spec: the core of the rotation search — evaluate the
squared Euclidean distance at every candidate shift and keep the first shift
achieving the minimum.  Returns `(best shift, squared distance there)`. -/
def polarMinSearch (a b : Mat) (dontShiftAngle : Bool) : ℕ × ℚ :=
  match polarShiftCandidates (matRows a) dontShiftAngle with
  | [] => (0, shiftDistSq a b 0)
  | s :: rest => selectMinAux (s, shiftDistSq a b s)
      (rest.map (fun t => (t, shiftDistSq a b t)))

/-- The divisor applied to the returned minimum distance when
`normalize_distances` is true: the total element count of the matrix. -/
def polarNormFactor (m : Mat) (normalize_distances : Bool) : ℝ :=
  if normalize_distances then ((matRows m * matCols m : ℕ) : ℝ) else 1

/-- Modelled from the spec: the body of
`CFeature::internal_distanceBetweenPolarImages` (declared but not defined in
the source slice).  Fails with `DimensionMismatch` if the two matrices
differ in shape; otherwise evaluates, for each candidate row-shift `s` from
`0` to `numRows - 1` (only `s = 0` when `dont_shift_angle`), the Euclidean
distance between `desc1` and `desc2` circularly shifted by `s` rows, and
returns the minimum distance found (divided by the total element count when
`normalize_distances`) together with the angle `s * 360 / numRows` of the
shift that achieved it. -/
noncomputable def internal_distanceBetweenPolarImages
    (desc1 desc2 : Mat) (dont_shift_angle normalize_distances : Bool) :
    Except VisionErr (ℝ × ℚ) :=
  if matRows desc1 = matRows desc2 ∧ matCols desc1 = matCols desc2 then
    Except.ok
      (Real.sqrt (((polarMinSearch desc1 desc2 dont_shift_angle).2 : ℚ) : ℝ) /
         polarNormFactor desc1 normalize_distances,
       ((polarMinSearch desc1 desc2 dont_shift_angle).1 : ℚ) * 360 / (matRows desc1 : ℚ))
  else
    Except.error VisionErr.DimensionMismatch

/-- Modelled from the spec: `CFeature::descriptorPolarImgDistanceTo` — the
rotation-search distance on the `PolarImg` descriptors; the rotation search
is suppressed when either feature's bundle carries the no-rotation flag.
The returned pair models the return value together with the `minDistAngle`
out-parameter. -/
noncomputable def CFeature.descriptorPolarImgDistanceTo
    (f o : CFeature) (normalize_distances : Bool) : Except VisionErr (ℝ × ℚ) :=
  internal_distanceBetweenPolarImages f.descriptors.PolarImg o.descriptors.PolarImg
    (f.descriptors.noRotationSearch || o.descriptors.noRotationSearch)
    normalize_distances

/-- Modelled from the spec: `CFeature::descriptorLogPolarImgDistanceTo` —
the rotation-search distance on the `LogPolarImg` descriptors. -/
noncomputable def CFeature.descriptorLogPolarImgDistanceTo
    (f o : CFeature) (normalize_distances : Bool) : Except VisionErr (ℝ × ℚ) :=
  internal_distanceBetweenPolarImages f.descriptors.LogPolarImg o.descriptors.LogPolarImg
    (f.descriptors.noRotationSearch || o.descriptors.noRotationSearch)
    normalize_distances

/-- Squared Euclidean distance between two equal-length vectors (summed over
the length of the first). -/
def vecDistSq (v1 v2 : List ℚ) : ℚ :=
  ∑ j ∈ Finset.range v1.length, (v1.getD j 0 - v2.getD j 0) ^ 2

/-- Modelled from the spec: Euclidean distance between two vector
descriptors; fails with `DimensionMismatch` if lengths differ; when
`normalize_distances` is true the raw distance is divided by the vector
length. -/
noncomputable def descriptorVectorDistance
    (v1 v2 : List ℚ) (normalize_distances : Bool) : Except VisionErr ℝ :=
  if v1.length = v2.length then
    Except.ok (Real.sqrt ((vecDistSq v1 v2 : ℚ) : ℝ) /
      (if normalize_distances then (v1.length : ℝ) else 1))
  else
    Except.error VisionErr.DimensionMismatch

/-- The SIFT byte vector viewed as rationals, for distance computations. -/
def TDescriptors.siftQ (d : TDescriptors) : List ℚ := d.SIFT.map (fun v : ℕ => (v : ℚ))

/-- Modelled from the spec: `CFeature::descriptorSIFTDistanceTo`. -/
noncomputable def CFeature.descriptorSIFTDistanceTo
    (f o : CFeature) (normalize_distances : Bool) : Except VisionErr ℝ :=
  descriptorVectorDistance f.descriptors.siftQ o.descriptors.siftQ normalize_distances

/-- Modelled from the spec: `CFeature::descriptorSURFDistanceTo`. -/
noncomputable def CFeature.descriptorSURFDistanceTo
    (f o : CFeature) (normalize_distances : Bool) : Except VisionErr ℝ :=
  descriptorVectorDistance f.descriptors.SURF o.descriptors.SURF normalize_distances

/-- Modelled from the spec: `CFeature::descriptorSpinImgDistanceTo`. -/
noncomputable def CFeature.descriptorSpinImgDistanceTo
    (f o : CFeature) (normalize_distances : Bool) : Except VisionErr ℝ :=
  descriptorVectorDistance f.descriptors.SpinImg o.descriptors.SpinImg normalize_distances

/-- Modelled from the spec: the first descriptor kind present in a bundle, in
the fixed priority order SIFT, SURF, SpinImage, PolarImage, LogPolarImage;
`none` when every slot is empty. -/
def TDescriptors.firstKind (d : TDescriptors) : Option TDescriptorType :=
  if d.hasDescriptorSIFT then some TDescriptorType.descSIFT
  else if d.hasDescriptorSURF then some TDescriptorType.descSURF
  else if d.hasDescriptorSpinImg then some TDescriptorType.descSpinImages
  else if d.hasDescriptorPolarImg then some TDescriptorType.descPolarImages
  else if d.hasDescriptorLogPolarImg then some TDescriptorType.descLogPolarImages
  else none

/-- Whether the bundle has the descriptor slot named by an explicit kind
(`descAny` reads as "has any descriptor at all"). -/
def TDescriptors.hasKind (d : TDescriptors) : TDescriptorType → Bool
  | .descAny => d.firstKind.isSome
  | .descSIFT => d.hasDescriptorSIFT
  | .descSURF => d.hasDescriptorSURF
  | .descSpinImages => d.hasDescriptorSpinImg
  | .descPolarImages => d.hasDescriptorPolarImg
  | .descLogPolarImages => d.hasDescriptorLogPolarImg

/-- Modelled from the spec: dispatch of `descriptorDistanceTo` on a concrete
(non-`descAny`) descriptor kind: Euclidean vector distance for
SIFT/SURF/SpinImage, rotation-search distance (distance component only; the
angle goes to a local out-variable) for the polar kinds.  The `descAny` arm
is unreachable from `descriptorDistanceTo`. -/
noncomputable def distByKind
    (f o : CFeature) (k : TDescriptorType) (normalize_distances : Bool) :
    Except VisionErr ℝ :=
  match k with
  | .descAny => Except.error VisionErr.MissingDescriptor
  | .descSIFT => f.descriptorSIFTDistanceTo o normalize_distances
  | .descSURF => f.descriptorSURFDistanceTo o normalize_distances
  | .descSpinImages => f.descriptorSpinImgDistanceTo o normalize_distances
  | .descPolarImages => (f.descriptorPolarImgDistanceTo o normalize_distances).map Prod.fst
  | .descLogPolarImages => (f.descriptorLogPolarImgDistanceTo o normalize_distances).map Prod.fst

/-- Modelled from the spec: `CFeature::descriptorDistanceTo` (declared but
not defined in the source slice).  If `descriptorToUse` is `descAny`, the
first descriptor kind present in `f` is selected, failing with
`MissingDescriptor` when `f` has none; if `descriptorToUse` is explicit it
fails with `MissingDescriptor` unless both features have that slot present;
otherwise it computes the Euclidean distance for that kind. -/
noncomputable def CFeature.descriptorDistanceTo
    (f o : CFeature) (descriptorToUse : TDescriptorType)
    (normalize_distances : Bool) : Except VisionErr ℝ :=
  match descriptorToUse with
  | .descAny =>
      match f.descriptors.firstKind with
      | none => Except.error VisionErr.MissingDescriptor
      | some k => distByKind f o k normalize_distances
  | k =>
      if f.descriptors.hasKind k && o.descriptors.hasKind k then
        distByKind f o k normalize_distances
      else
        Except.error VisionErr.MissingDescriptor

/-- Row-major reshape of a flat vector into `rows` rows of `v.length / rows`
entries, used to view the flattened SpinImage histogram as its original 2-D
matrix. -/
def reshapeRowMajor (v : List ℚ) (rows : ℕ) : Mat :=
  (List.range rows).map (fun i => (v.drop (i * (v.length / rows))).take (v.length / rows))

/-- Modelled from the spec: `CFeature::getFirstDescriptorAsMatrix` (declared
but not defined in the source slice).  Returns the first present descriptor
reinterpreted as a 2-D numeric matrix (a single row for the vector
descriptors, the SpinImage reshaped row-major to its original
`SpinImg_range_rows` rows), choosing among present slots in the fixed
priority order SIFT, SURF, SpinImage, PolarImage, LogPolarImage; fails with
`NoDescriptorAvailable` when all descriptor slots are empty. -/
def CFeature.getFirstDescriptorAsMatrix (f : CFeature) : Except VisionErr Mat :=
  if f.descriptors.hasDescriptorSIFT then Except.ok [f.descriptors.siftQ]
  else if f.descriptors.hasDescriptorSURF then Except.ok [f.descriptors.SURF]
  else if f.descriptors.hasDescriptorSpinImg then
    Except.ok (reshapeRowMajor f.descriptors.SpinImg f.descriptors.SpinImg_range_rows)
  else if f.descriptors.hasDescriptorPolarImg then Except.ok f.descriptors.PolarImg
  else if f.descriptors.hasDescriptorLogPolarImg then Except.ok f.descriptors.LogPolarImg
  else Except.error VisionErr.NoDescriptorAvailable

/-- Source `class CFeatureList`: the container `m_feats` (a deque of feature
pointers) embedded as a list of features. -/
structure CFeatureList where
  m_feats : List CFeature
deriving DecidableEq, Repr

/-- Source inline body: `CFeatureList::get_type()` is
`empty() ? featNotDefined : (*begin())->get_type()`. -/
def CFeatureList.get_type (l : CFeatureList) : TFeatureType :=
  match l.m_feats with
  | [] => TFeatureType.featNotDefined
  | f :: _ => f.get_type

/-- Modelled from the spec: `CFeatureList::getMaxID` (declared but not
defined in the source slice): the maximum `ID` over all contained features,
failing with `EmptyCollection` on an empty collection. -/
def CFeatureList.getMaxID (l : CFeatureList) : Except VisionErr ℕ :=
  match l.m_feats with
  | [] => Except.error VisionErr.EmptyCollection
  | f :: rest => Except.ok (rest.foldl (fun m g => max m g.ID) f.ID)

/-- Modelled from the spec: `CFeatureList::getByID` (declared but not defined
in the source slice): the first feature, in collection order, whose `ID`
equals the argument, or `none`. -/
def CFeatureList.getByID (l : CFeatureList) (id : ℕ) : Option CFeature :=
  l.m_feats.find? (fun f => f.ID == id)

/-- Squared Euclidean distance from a feature's `(x, y)` to a query point. -/
def featDistSq (f : CFeature) (x y : ℚ) : ℚ := (f.x - x) ^ 2 + (f.y - y) ^ 2

/-- Modelled from the spec: the spatial-index backend of `nearest` as the
abstract capability of §6 — the first feature, in collection order,
achieving the minimum squared distance to the query point, paired with that
squared distance; `none` on an empty collection. -/
def nearestCore (feats : List CFeature) (x y : ℚ) : Option (CFeature × ℚ) :=
  match feats.map (fun f => (f, featDistSq f x y)) with
  | [] => none
  | p :: rest => some (selectMinAux p rest)

/-- Modelled from the spec: `CFeatureList::nearest` (declared but not defined
in the source slice).  Returns the found feature (or `none`) together with
the final value of the `max_dist` in/out parameter: the closest feature is
returned provided its Euclidean distance is at most the input `max_dist`, in
which case `max_dist` becomes that distance; otherwise nothing is found and
`max_dist` is unchanged.  The radius test `sqrt dsq ≤ max_dist` is evaluated
equivalently in rationals as `0 ≤ max_dist ∧ dsq ≤ max_dist ^ 2`. -/
noncomputable def CFeatureList.nearest
    (l : CFeatureList) (x y : ℚ) (max_dist : ℚ) : Option CFeature × ℝ :=
  match nearestCore l.m_feats x y with
  | none => (none, (max_dist : ℝ))
  | some (f, dsq) =>
      if 0 ≤ max_dist ∧ dsq ≤ max_dist ^ 2 then
        (some f, Real.sqrt ((dsq : ℚ) : ℝ))
      else
        (none, (max_dist : ℝ))

/-- Source `class CMatchedFeatureList`: a deque of pairs of feature pointers,
embedded as a list of pairs of features. -/
structure CMatchedFeatureList where
  pairs : List (CFeature × CFeature)
deriving DecidableEq, Repr

/-- Source inline body: `CMatchedFeatureList::get_type()` is
`empty() ? featNotDefined : (begin()->first)->get_type()`. -/
def CMatchedFeatureList.get_type (m : CMatchedFeatureList) : TFeatureType :=
  match m.pairs with
  | [] => TFeatureType.featNotDefined
  | p :: _ => p.1.get_type

/-- Modelled from the spec: `getMaxID` as a call on the collection state — a
`const` query in the source, so it returns its result together with the
collection it leaves behind. -/
def CFeatureList.getMaxID_call (l : CFeatureList) :
    Except VisionErr ℕ × CFeatureList := (l.getMaxID, l)

/-- Modelled from the spec: `getByID` as a call on the collection state
(`const` query in the source). -/
def CFeatureList.getByID_call (l : CFeatureList) (id : ℕ) :
    Option CFeature × CFeatureList := (l.getByID id, l)

/-- Modelled from the spec: `nearest` as a call on the collection state
(`const` query in the source; it writes only its `max_dist` out-parameter,
returned inside the first component). -/
noncomputable def CFeatureList.nearest_call
    (l : CFeatureList) (x y max_dist : ℚ) :
    (Option CFeature × ℝ) × CFeatureList := (l.nearest x y max_dist, l)

/-- Modelled from the spec: `get_type` as a call on the collection state
(`const` query, inline in the source). -/
def CFeatureList.get_type_call (l : CFeatureList) :
    TFeatureType × CFeatureList := (l.get_type, l)

/-! ## Helper lemmas about the first-minimum selection -/

theorem selectMinAux_nil {α : Type} (best : α × ℚ) : selectMinAux best [] = best := rfl

theorem selectMinAux_cons {α : Type} (best p : α × ℚ) (rest : List (α × ℚ)) :
    selectMinAux best (p :: rest) =
      selectMinAux (if p.2 < best.2 then p else best) rest := rfl

theorem selectMinAux_snd_le_best {α : Type} (l : List (α × ℚ)) (best : α × ℚ) :
    (selectMinAux best l).2 ≤ best.2 := by
  induction l generalizing best with
  | nil => exact le_refl _
  | cons p rest ih =>
    rw [selectMinAux_cons]
    refine le_trans (ih _) ?_
    by_cases h : p.2 < best.2
    · simpa [h] using le_of_lt h
    · simp [h]

theorem selectMinAux_snd_le_mem {α : Type} (l : List (α × ℚ)) (best p : α × ℚ)
    (hp : p ∈ l) : (selectMinAux best l).2 ≤ p.2 := by
  induction l generalizing best with
  | nil => cases hp
  | cons q rest ih =>
    rw [selectMinAux_cons]
    rcases List.mem_cons.mp hp with h | h
    · subst h
      refine le_trans (selectMinAux_snd_le_best _ _) ?_
      by_cases hlt : p.2 < best.2
      · simp [hlt]
      · simpa [hlt] using le_of_not_lt hlt
    · exact ih _ h

theorem selectMinAux_mem {α : Type} (l : List (α × ℚ)) (best : α × ℚ) :
    selectMinAux best l = best ∨ selectMinAux best l ∈ l := by
  induction l generalizing best with
  | nil => exact Or.inl rfl
  | cons q rest ih =>
    rw [selectMinAux_cons]
    rcases ih (if q.2 < best.2 then q else best) with h | h
    · rw [h]
      by_cases hlt : q.2 < best.2
      · exact Or.inr (by simp [hlt])
      · exact Or.inl (by simp [hlt])
    · exact Or.inr (List.mem_cons_of_mem _ h)

/-! ## Helper lemmas about the shifted squared distance -/

theorem shiftDistSq_nonneg (a b : Mat) (s : ℕ) : 0 ≤ shiftDistSq a b s :=
  Finset.sum_nonneg fun _ _ => Finset.sum_nonneg fun _ _ => sq_nonneg _

/-- When row `(i + k) mod n` of `b` is row `i` of `a` for every `i` (that is,
`b` is a copy of `a` circularly shifted by `k` rows), the squared distance at
shift `k mod n` vanishes. -/
theorem shiftDistSq_eq_zero_of_copy (a b : Mat) (n k : ℕ)
    (har : matRows a = n)
    (hcopy : ∀ i, i < n → rowGet b ((i + k) % n) = rowGet a i) :
    shiftDistSq a b (k % n) = 0 := by
  unfold shiftDistSq
  rw [har]
  refine Finset.sum_eq_zero fun i hi => Finset.sum_eq_zero fun j _ => ?_
  have hi' : i < n := Finset.mem_range.mp hi
  have h1 : (i + k % n) % n = (i + k) % n := Nat.add_mod_mod i k n
  have h2 : entry b ((i + k % n) % n) j = entry a i j := by
    unfold entry
    rw [h1, hcopy i hi']
  rw [h2, sub_self]
  exact zero_pow (by norm_num)

/-- The key modular-arithmetic fact behind the symmetry of the rotation
search: `s` plus `(n - s mod n) mod n` is a multiple of `n`. -/
theorem shift_add_inv_mod (n s : ℕ) (hn : 0 < n) :
    (s + (n - s % n) % n) % n = 0 := by
  have hsm : s % n ≤ n := le_of_lt (Nat.mod_lt s hn)
  have key : s % n + (n - s % n) = n := Nat.add_sub_cancel' hsm
  have h2 : s + (n - s % n) = n * (s / n) + n := by
    calc s + (n - s % n) = n * (s / n) + s % n + (n - s % n) := by rw [Nat.div_add_mod]
      _ = n * (s / n) + (s % n + (n - s % n)) := by rw [Nat.add_assoc]
      _ = n * (s / n) + n := by rw [key]
  have h3 : (s + (n - s % n)) % n = 0 := by
    rw [h2]
    have h4 : n * (s / n) + n = n * (s / n + 1) := by ring
    rw [h4, Nat.mul_mod_right]
  calc (s + (n - s % n) % n) % n = (s + (n - s % n)) % n := Nat.add_mod_mod _ _ _
    _ = 0 := h3

/-- Adding the inverse shift `(n - s mod n) mod n` after adding `s` returns
to the start, modulo `n`. -/
theorem add_shift_add_inv_mod (n s i : ℕ) (hn : 0 < n) (hi : i < n) :
    ((i + s) % n + (n - s % n) % n) % n = i := by
  have h1 : ((i + s) % n + (n - s % n) % n) % n = (i + s + (n - s % n) % n) % n :=
    Nat.mod_add_mod _ _ _
  have h2 : (i + s + (n - s % n) % n) % n = (i + (s + (n - s % n) % n)) % n := by
    rw [Nat.add_assoc]
  have h3 : (i + (s + (n - s % n) % n)) % n = (i % n + (s + (n - s % n) % n) % n) % n :=
    Nat.add_mod _ _ _
  rw [h1, h2, h3, shift_add_inv_mod n s hn, Nat.add_zero]
  simp [Nat.mod_eq_of_lt hi]

/-- Swapping the arguments of the rotation search replaces shift `s` by its
modular inverse shift `(n - s mod n) mod n`. -/
theorem shiftDistSq_swap (a b : Mat) (n : ℕ) (hn : 0 < n)
    (har : matRows a = n) (hbr : matRows b = n) (hc : matCols a = matCols b)
    (s : ℕ) :
    shiftDistSq b a s = shiftDistSq a b ((n - s % n) % n) := by
  unfold shiftDistSq
  rw [har, hbr, ← hc]
  refine Finset.sum_nbij' (fun i => (i + s) % n) (fun i => (i + (n - s % n) % n) % n)
    ?_ ?_ ?_ ?_ ?_
  · intro i hi
    exact Finset.mem_range.mpr (Nat.mod_lt _ hn)
  · intro i hi
    exact Finset.mem_range.mpr (Nat.mod_lt _ hn)
  · intro i hi
    exact add_shift_add_inv_mod n s i hn (Finset.mem_range.mp hi)
  · intro i hi
    show ((i + (n - s % n) % n) % n + s) % n = i
    have hi' : i < n := Finset.mem_range.mp hi
    have h1 : ((i + (n - s % n) % n) % n + s) % n = (i + ((n - s % n) % n + s)) % n := by
      rw [Nat.mod_add_mod, Nat.add_assoc]
    have h2 : ((n - s % n) % n + s) % n = 0 := by
      rw [Nat.add_comm]
      exact shift_add_inv_mod n s hn
    have h3 : (i + ((n - s % n) % n + s)) % n = (i % n + ((n - s % n) % n + s) % n) % n :=
      Nat.add_mod _ _ _
    rw [h1, h3, h2, Nat.add_zero, Nat.mod_eq_of_lt (Nat.mod_lt i hn)]
    exact Nat.mod_eq_of_lt hi'
  · intro i hi
    have hi' : i < n := Finset.mem_range.mp hi
    refine Finset.sum_congr rfl fun j _ => ?_
    have h1 : ((i + s) % n + (n - s % n) % n) % n = i :=
      add_shift_add_inv_mod n s i hn hi'
    rw [h1]
    ring

/-! ## Helper lemmas about the rotation search -/

theorem polarMinSearch_true (a b : Mat) :
    polarMinSearch a b true = (0, shiftDistSq a b 0) := rfl

/-- With the full rotation search, the result is the value at some shift
below `numRows`, and it is a lower bound for every shift below `numRows`. -/
theorem polarMinSearch_false_spec (a b : Mat) (hn : 0 < matRows a) :
    (∃ s, s < matRows a ∧ polarMinSearch a b false = (s, shiftDistSq a b s)) ∧
    (∀ t, t < matRows a → (polarMinSearch a b false).2 ≤ shiftDistSq a b t) := by
  obtain ⟨m, hm⟩ : ∃ m, matRows a = m + 1 :=
    ⟨matRows a - 1, (Nat.succ_pred_eq_of_pos hn).symm⟩
  have hcand : polarShiftCandidates (matRows a) false = 0 :: (List.range m).map Nat.succ := by
    unfold polarShiftCandidates
    rw [if_neg (by simp), hm, List.range_succ_eq_map]
  have hres : polarMinSearch a b false =
      selectMinAux (0, shiftDistSq a b 0)
        (((List.range m).map Nat.succ).map (fun t => (t, shiftDistSq a b t))) := by
    unfold polarMinSearch
    rw [hcand]
  constructor
  · rcases selectMinAux_mem
      (((List.range m).map Nat.succ).map (fun t => (t, shiftDistSq a b t)))
      (0, shiftDistSq a b 0) with h | h
    · exact ⟨0, hn, by rw [hres, h]⟩
    · obtain ⟨t, htl, hteq⟩ := List.mem_map.mp h
      obtain ⟨u, hul, hueq⟩ := List.mem_map.mp htl
      refine ⟨t, ?_, by rw [hres, ← hteq]⟩
      rw [hm, ← hueq]
      exact Nat.succ_lt_succ (List.mem_range.mp hul)
  · intro t ht
    rw [hres]
    cases t with
    | zero => exact selectMinAux_snd_le_best _ _
    | succ u =>
      have hu : u < m := by
        rw [hm] at ht
        exact Nat.lt_of_succ_lt_succ ht
      have hmem : (u + 1, shiftDistSq a b (u + 1)) ∈
          ((List.range m).map Nat.succ).map (fun t => (t, shiftDistSq a b t)) :=
        List.mem_map.mpr ⟨u + 1,
          List.mem_map.mpr ⟨u, List.mem_range.mpr hu, rfl⟩, rfl⟩
      exact selectMinAux_snd_le_mem _ _ _ hmem

/-- The zero-shift squared distance is symmetric in its two matrices. -/
theorem shiftDistSq_zero_swap (a b : Mat) (n : ℕ) (hn : 0 < n)
    (har : matRows a = n) (hbr : matRows b = n) (hc : matCols a = matCols b) :
    shiftDistSq b a 0 = shiftDistSq a b 0 := by
  have h := shiftDistSq_swap a b n hn har hbr hc 0
  simpa [Nat.mod_self] using h

/-- The minimum squared distance found by the full rotation search is
symmetric in its two matrices. -/
theorem polarMinSearch_snd_swap (a b : Mat) (n : ℕ) (hn : 0 < n)
    (har : matRows a = n) (hbr : matRows b = n) (hc : matCols a = matCols b) :
    (polarMinSearch a b false).2 = (polarMinSearch b a false).2 := by
  have hna : 0 < matRows a := by rw [har]; exact hn
  have hnb : 0 < matRows b := by rw [hbr]; exact hn
  obtain ⟨⟨s1, hs1, he1⟩, hle1⟩ := polarMinSearch_false_spec a b hna
  obtain ⟨⟨s2, hs2, he2⟩, hle2⟩ := polarMinSearch_false_spec b a hnb
  apply le_antisymm
  · have ht2 : (n - s2 % n) % n < matRows a := by
      rw [har]
      exact Nat.mod_lt _ hn
    have h1 : (polarMinSearch a b false).2 ≤ shiftDistSq a b ((n - s2 % n) % n) :=
      hle1 _ ht2
    have h2 : shiftDistSq b a s2 = shiftDistSq a b ((n - s2 % n) % n) :=
      shiftDistSq_swap a b n hn har hbr hc s2
    rw [he2]
    calc (polarMinSearch a b false).2 ≤ shiftDistSq a b ((n - s2 % n) % n) := h1
      _ = (s2, shiftDistSq b a s2).2 := by rw [← h2]
  · have ht1 : (n - s1 % n) % n < matRows b := by
      rw [hbr]
      exact Nat.mod_lt _ hn
    have h1 : (polarMinSearch b a false).2 ≤ shiftDistSq b a ((n - s1 % n) % n) :=
      hle2 _ ht1
    have h2 : shiftDistSq a b s1 = shiftDistSq b a ((n - s1 % n) % n) :=
      shiftDistSq_swap b a n hn hbr har hc.symm s1
    rw [he1]
    calc (polarMinSearch b a false).2 ≤ shiftDistSq b a ((n - s1 % n) % n) := h1
      _ = (s1, shiftDistSq a b s1).2 := by rw [← h2]

/-! ## Sample data used by the concrete witnesses -/

/-- A descriptor bundle with every slot empty. -/
def emptyDescriptors : TDescriptors :=
  { SIFT := [], SURF := [], SpinImg := [], SpinImg_range_rows := 0,
    PolarImg := [], LogPolarImg := [], noRotationSearch := false }

/-- A feature with the given id, type and position, and no descriptors. -/
def sampleFeature (i : ℕ) (t : TFeatureType) (px py : ℚ) : CFeature :=
  { x := px, y := py, ID := i, patchSize := 0, type := t, track_status := status_IDLE,
    response := 0, orientation := 0, scale := 0, IDSourceImage := 0,
    descriptors := emptyDescriptors }

/-! ## Claim C9 -/

/-- C9: in `TFeatureTrackStatus`, the generic "tracked" state and the
KLT-specific "tracked" code encode to the same value, as do the generic and
KLT-specific "out of bounds" codes, while the KLT-only failure reasons
(small determinant, large residue, max residue, max iterations) are distinct
from every generic state. -/
theorem C9_track_status_codes :
    status_TRACKED = statusKLT_TRACKED ∧
    status_OOB = statusKLT_OOB ∧
    (statusKLT_SMALL_DET ≠ status_IDLE ∧ statusKLT_SMALL_DET ≠ status_TRACKED ∧
     statusKLT_SMALL_DET ≠ status_OOB ∧ statusKLT_SMALL_DET ≠ status_LOST) ∧
    (statusKLT_LARGE_RESIDUE ≠ status_IDLE ∧ statusKLT_LARGE_RESIDUE ≠ status_TRACKED ∧
     statusKLT_LARGE_RESIDUE ≠ status_OOB ∧ statusKLT_LARGE_RESIDUE ≠ status_LOST) ∧
    (statusKLT_MAX_RESIDUE ≠ status_IDLE ∧ statusKLT_MAX_RESIDUE ≠ status_TRACKED ∧
     statusKLT_MAX_RESIDUE ≠ status_OOB ∧ statusKLT_MAX_RESIDUE ≠ status_LOST) ∧
    (statusKLT_MAX_ITERATIONS ≠ status_IDLE ∧ statusKLT_MAX_ITERATIONS ≠ status_TRACKED ∧
     statusKLT_MAX_ITERATIONS ≠ status_OOB ∧ statusKLT_MAX_ITERATIONS ≠ status_LOST) := by
  decide

/-! ## Claim C8 -/

/-- C8: `get_type` on a feature collection returns the type tag of its first
feature and `featNotDefined` ("undefined") when the collection is empty;
`get_type` on a matched-pair collection returns the type tag of the first
pair's first element and `featNotDefined` when empty. -/
theorem C8_collection_get_type (l : CFeatureList) (m : CMatchedFeatureList) :
    (l.m_feats = [] → l.get_type = TFeatureType.featNotDefined) ∧
    (∀ f rest, l.m_feats = f :: rest → l.get_type = f.type) ∧
    (m.pairs = [] → m.get_type = TFeatureType.featNotDefined) ∧
    (∀ p rest, m.pairs = p :: rest → m.get_type = p.1.type) := by
  refine ⟨?_, ?_, ?_, ?_⟩
  · intro h
    simp [CFeatureList.get_type, h]
  · intro f rest h
    simp [CFeatureList.get_type, h, CFeature.get_type]
  · intro h
    simp [CMatchedFeatureList.get_type, h]
  · intro p rest h
    simp [CMatchedFeatureList.get_type, h, CFeature.get_type]

/-- Concrete instance of C8: an empty collection reports `featNotDefined`,
and collections headed by a KLT feature report `featKLT`. -/
theorem C8_collection_get_type_witness :
    (CFeatureList.mk []).get_type = TFeatureType.featNotDefined ∧
    (CFeatureList.mk [sampleFeature 1 TFeatureType.featKLT 0 0]).get_type =
      TFeatureType.featKLT ∧
    (CMatchedFeatureList.mk []).get_type = TFeatureType.featNotDefined ∧
    (CMatchedFeatureList.mk
      [(sampleFeature 1 TFeatureType.featKLT 0 0,
        sampleFeature 2 TFeatureType.featHarris 1 1)]).get_type =
      TFeatureType.featKLT := by
  refine ⟨?_, ?_, ?_, ?_⟩
  · exact (C8_collection_get_type ⟨[]⟩ ⟨[]⟩).1 rfl
  · exact (C8_collection_get_type ⟨[sampleFeature 1 TFeatureType.featKLT 0 0]⟩ ⟨[]⟩).2.1 _ _ rfl
  · exact (C8_collection_get_type ⟨[]⟩ ⟨[]⟩).2.2.1 rfl
  · exact (C8_collection_get_type ⟨[]⟩
      ⟨[(sampleFeature 1 TFeatureType.featKLT 0 0,
         sampleFeature 2 TFeatureType.featHarris 1 1)]⟩).2.2.2 _ _ rfl

/-! ## Claim C5 -/

/-- The running maximum computed by `getMaxID` is both an upper bound of and
achieved by the ids it folds over. -/
theorem foldl_max_spec (rest : List CFeature) (init : ℕ) :
    (init ≤ rest.foldl (fun m g => max m g.ID) init ∧
     ∀ f ∈ rest, f.ID ≤ rest.foldl (fun m g => max m g.ID) init) ∧
    (rest.foldl (fun m g => max m g.ID) init = init ∨
     ∃ f ∈ rest, f.ID = rest.foldl (fun m g => max m g.ID) init) := by
  induction rest generalizing init with
  | nil => simp
  | cons g rest ih =>
    obtain ⟨⟨hle, hmem⟩, hach⟩ := ih (max init g.ID)
    rw [List.foldl_cons]
    refine ⟨⟨le_trans (le_max_left _ _) hle, ?_⟩, ?_⟩
    · intro f hf
      rcases List.mem_cons.mp hf with h | h
      · subst h
        exact le_trans (le_max_right _ _) hle
      · exact hmem f h
    · rcases hach with h | ⟨f, hf, hfe⟩
      · rcases max_cases init g.ID with ⟨hmax, _⟩ | ⟨hmax, _⟩
        · exact Or.inl (by rw [h, hmax])
        · exact Or.inr ⟨g, List.mem_cons_self _ _, by rw [h, hmax]⟩
      · exact Or.inr ⟨f, List.mem_cons_of_mem _ hf, hfe⟩

/-- C5: `getMaxID` on a non-empty feature collection returns the maximum id
over all contained features, and fails with `EmptyCollection` on an empty
collection. -/
theorem C5_getMaxID (l : CFeatureList) :
    (l.m_feats = [] → l.getMaxID = Except.error VisionErr.EmptyCollection) ∧
    (l.m_feats ≠ [] → ∃ m, l.getMaxID = Except.ok m ∧
      (∃ f ∈ l.m_feats, f.ID = m) ∧ ∀ f ∈ l.m_feats, f.ID ≤ m) := by
  constructor
  · intro h
    simp [CFeatureList.getMaxID, h]
  · intro h
    obtain ⟨f, rest, hfr⟩ := List.exists_cons_of_ne_nil h
    obtain ⟨⟨hle, hmem⟩, hach⟩ := foldl_max_spec rest f.ID
    refine ⟨rest.foldl (fun m g => max m g.ID) f.ID, ?_, ?_, ?_⟩
    · simp [CFeatureList.getMaxID, hfr]
    · rcases hach with hh | ⟨g, hg, hge⟩
      · exact ⟨f, by simp [hfr], hh.symm⟩
      · exact ⟨g, by simp [hfr, hg], hge⟩
    · intro g hg
      rw [hfr] at hg
      rcases List.mem_cons.mp hg with h1 | h1
      · subst h1
        exact hle
      · exact hmem g h1

/-- Concrete instance of C5: the empty collection fails with
`EmptyCollection`, and ids `{3, 7, 5}` give maximum 7. -/
theorem C5_getMaxID_witness :
    (CFeatureList.mk []).getMaxID = Except.error VisionErr.EmptyCollection ∧
    (CFeatureList.mk
      [sampleFeature 3 TFeatureType.featKLT 0 0,
       sampleFeature 7 TFeatureType.featKLT 0 0,
       sampleFeature 5 TFeatureType.featKLT 0 0]).getMaxID = Except.ok 7 := by
  constructor
  · exact (C5_getMaxID ⟨[]⟩).1 rfl
  · rfl

/-! ## Claim C10 -/

/-- C10: the query operations on a feature collection — `getMaxID`,
`getByID`, `nearest` and `get_type` — leave the collection (its features,
their order, and every field) unchanged; `nearest` writes only to its
`max_dist` out-parameter, returned in the first component. -/
theorem C10_queries_leave_collection_unchanged
    (l : CFeatureList) (id : ℕ) (x y max_dist : ℚ) :
    l.getMaxID_call.2 = l ∧
    (l.getByID_call id).2 = l ∧
    (l.nearest_call x y max_dist).2 = l ∧
    l.get_type_call.2 = l :=
  ⟨rfl, rfl, rfl, rfl⟩

/-! ## Claim C7 -/

/-- C7: `getFirstDescriptorAsMatrix` returns the first present descriptor as
a 2-D matrix, choosing among present slots in the fixed priority order SIFT,
SURF, SpinImage, PolarImage, LogPolarImage, and fails with
`NoDescriptorAvailable` exactly when all descriptor slots are empty. -/
theorem C7_getFirstDescriptorAsMatrix (f : CFeature) :
    (f.getFirstDescriptorAsMatrix = Except.error VisionErr.NoDescriptorAvailable ↔
      (f.descriptors.hasDescriptorSIFT = false ∧
       f.descriptors.hasDescriptorSURF = false ∧
       f.descriptors.hasDescriptorSpinImg = false ∧
       f.descriptors.hasDescriptorPolarImg = false ∧
       f.descriptors.hasDescriptorLogPolarImg = false)) ∧
    (f.descriptors.hasDescriptorSIFT = true →
      f.getFirstDescriptorAsMatrix = Except.ok [f.descriptors.siftQ]) ∧
    (f.descriptors.hasDescriptorSIFT = false →
     f.descriptors.hasDescriptorSURF = true →
      f.getFirstDescriptorAsMatrix = Except.ok [f.descriptors.SURF]) ∧
    (f.descriptors.hasDescriptorSIFT = false →
     f.descriptors.hasDescriptorSURF = false →
     f.descriptors.hasDescriptorSpinImg = true →
      f.getFirstDescriptorAsMatrix =
        Except.ok (reshapeRowMajor f.descriptors.SpinImg f.descriptors.SpinImg_range_rows)) ∧
    (f.descriptors.hasDescriptorSIFT = false →
     f.descriptors.hasDescriptorSURF = false →
     f.descriptors.hasDescriptorSpinImg = false →
     f.descriptors.hasDescriptorPolarImg = true →
      f.getFirstDescriptorAsMatrix = Except.ok f.descriptors.PolarImg) ∧
    (f.descriptors.hasDescriptorSIFT = false →
     f.descriptors.hasDescriptorSURF = false →
     f.descriptors.hasDescriptorSpinImg = false →
     f.descriptors.hasDescriptorPolarImg = false →
     f.descriptors.hasDescriptorLogPolarImg = true →
      f.getFirstDescriptorAsMatrix = Except.ok f.descriptors.LogPolarImg) := by
  unfold CFeature.getFirstDescriptorAsMatrix
  by_cases h1 : f.descriptors.hasDescriptorSIFT = true <;>
  by_cases h2 : f.descriptors.hasDescriptorSURF = true <;>
  by_cases h3 : f.descriptors.hasDescriptorSpinImg = true <;>
  by_cases h4 : f.descriptors.hasDescriptorPolarImg = true <;>
  by_cases h5 : f.descriptors.hasDescriptorLogPolarImg = true <;>
  simp [h1, h2, h3, h4, h5]

/-- Sample descriptor bundle holding only a polar-image descriptor. -/
def polarOnlyDescriptors : TDescriptors :=
  { emptyDescriptors with PolarImg := [[1, 2], [3, 4]] }

/-- Concrete instance of C7: a bundle holding only a polar image yields that
matrix (the three higher-priority slots being empty), and an empty bundle
fails with `NoDescriptorAvailable`. -/
theorem C7_getFirstDescriptorAsMatrix_witness :
    (sampleFeature 1 TFeatureType.featKLT 0 0).getFirstDescriptorAsMatrix =
      Except.error VisionErr.NoDescriptorAvailable ∧
    ({ sampleFeature 1 TFeatureType.featKLT 0 0 with
        descriptors := polarOnlyDescriptors } : CFeature).getFirstDescriptorAsMatrix =
      Except.ok [[1, 2], [3, 4]] := by
  constructor
  · exact (C7_getFirstDescriptorAsMatrix _).1.mpr ⟨rfl, rfl, rfl, rfl, rfl⟩
  · exact (C7_getFirstDescriptorAsMatrix _).2.2.2.2.1 rfl rfl rfl rfl

/-! ## Claim C3 -/

/-- The per-kind distance dispatch never reports a missing descriptor for an
explicit kind: it either succeeds or reports a dimension mismatch. -/
theorem distByKind_ne_missing (f o : CFeature) (k : TDescriptorType) (norm : Bool)
    (hk : k ≠ TDescriptorType.descAny) :
    distByKind f o k norm ≠ Except.error VisionErr.MissingDescriptor := by
  cases k with
  | descAny => exact absurd rfl hk
  | descSIFT =>
      unfold distByKind CFeature.descriptorSIFTDistanceTo descriptorVectorDistance
      by_cases h : f.descriptors.siftQ.length = o.descriptors.siftQ.length <;> simp [h]
  | descSURF =>
      unfold distByKind CFeature.descriptorSURFDistanceTo descriptorVectorDistance
      by_cases h : f.descriptors.SURF.length = o.descriptors.SURF.length <;> simp [h]
  | descSpinImages =>
      unfold distByKind CFeature.descriptorSpinImgDistanceTo descriptorVectorDistance
      by_cases h : f.descriptors.SpinImg.length = o.descriptors.SpinImg.length <;> simp [h]
  | descPolarImages =>
      unfold distByKind CFeature.descriptorPolarImgDistanceTo
        internal_distanceBetweenPolarImages
      by_cases h : matRows f.descriptors.PolarImg = matRows o.descriptors.PolarImg ∧
          matCols f.descriptors.PolarImg = matCols o.descriptors.PolarImg <;>
        simp [h, Except.map]
  | descLogPolarImages =>
      unfold distByKind CFeature.descriptorLogPolarImgDistanceTo
        internal_distanceBetweenPolarImages
      by_cases h : matRows f.descriptors.LogPolarImg = matRows o.descriptors.LogPolarImg ∧
          matCols f.descriptors.LogPolarImg = matCols o.descriptors.LogPolarImg <;>
        simp [h, Except.map]

/-- C3: `descriptorDistanceTo` fails with `MissingDescriptor` exactly when
the needed descriptor is absent: for an explicit kind, unless both features
have that slot present; for `descAny`, exactly when the first feature has no
descriptor at all (otherwise its first present kind is selected). -/
theorem C3_missingDescriptor_iff (f o : CFeature) (k : TDescriptorType) (norm : Bool) :
    f.descriptorDistanceTo o k norm = Except.error VisionErr.MissingDescriptor ↔
      ((k = TDescriptorType.descAny ∧
        f.descriptors.hasDescriptorSIFT = false ∧
        f.descriptors.hasDescriptorSURF = false ∧
        f.descriptors.hasDescriptorSpinImg = false ∧
        f.descriptors.hasDescriptorPolarImg = false ∧
        f.descriptors.hasDescriptorLogPolarImg = false) ∨
       (k ≠ TDescriptorType.descAny ∧
        ¬(f.descriptors.hasKind k = true ∧ o.descriptors.hasKind k = true))) := by
  cases k with
  | descAny =>
      by_cases h1 : f.descriptors.hasDescriptorSIFT = true <;>
      by_cases h2 : f.descriptors.hasDescriptorSURF = true <;>
      by_cases h3 : f.descriptors.hasDescriptorSpinImg = true <;>
      by_cases h4 : f.descriptors.hasDescriptorPolarImg = true <;>
      by_cases h5 : f.descriptors.hasDescriptorLogPolarImg = true <;>
      simp only [CFeature.descriptorDistanceTo, TDescriptors.firstKind,
        h1, h2, h3, h4, h5, if_true, if_false, Bool.false_eq_true] <;>
      simp [h1, h2, h3, h4, h5, distByKind_ne_missing f o _ norm]
  | descSIFT =>
      by_cases hb : (f.descriptors.hasKind TDescriptorType.descSIFT &&
          o.descriptors.hasKind TDescriptorType.descSIFT) = true
      · rw [show f.descriptorDistanceTo o TDescriptorType.descSIFT norm =
            distByKind f o TDescriptorType.descSIFT norm from by
              simp [CFeature.descriptorDistanceTo, hb]]
        refine iff_of_false (distByKind_ne_missing f o _ norm (by simp)) ?_
        rw [Bool.and_eq_true] at hb
        simp [hb.1, hb.2]
      · rw [show f.descriptorDistanceTo o TDescriptorType.descSIFT norm =
            Except.error VisionErr.MissingDescriptor from by
              simp [CFeature.descriptorDistanceTo, hb]]
        refine iff_of_true rfl (Or.inr ⟨by simp, ?_⟩)
        rw [Bool.and_eq_true] at hb
        exact hb
  | descSURF =>
      by_cases hb : (f.descriptors.hasKind TDescriptorType.descSURF &&
          o.descriptors.hasKind TDescriptorType.descSURF) = true
      · rw [show f.descriptorDistanceTo o TDescriptorType.descSURF norm =
            distByKind f o TDescriptorType.descSURF norm from by
              simp [CFeature.descriptorDistanceTo, hb]]
        refine iff_of_false (distByKind_ne_missing f o _ norm (by simp)) ?_
        rw [Bool.and_eq_true] at hb
        simp [hb.1, hb.2]
      · rw [show f.descriptorDistanceTo o TDescriptorType.descSURF norm =
            Except.error VisionErr.MissingDescriptor from by
              simp [CFeature.descriptorDistanceTo, hb]]
        refine iff_of_true rfl (Or.inr ⟨by simp, ?_⟩)
        rw [Bool.and_eq_true] at hb
        exact hb
  | descSpinImages =>
      by_cases hb : (f.descriptors.hasKind TDescriptorType.descSpinImages &&
          o.descriptors.hasKind TDescriptorType.descSpinImages) = true
      · rw [show f.descriptorDistanceTo o TDescriptorType.descSpinImages norm =
            distByKind f o TDescriptorType.descSpinImages norm from by
              simp [CFeature.descriptorDistanceTo, hb]]
        refine iff_of_false (distByKind_ne_missing f o _ norm (by simp)) ?_
        rw [Bool.and_eq_true] at hb
        simp [hb.1, hb.2]
      · rw [show f.descriptorDistanceTo o TDescriptorType.descSpinImages norm =
            Except.error VisionErr.MissingDescriptor from by
              simp [CFeature.descriptorDistanceTo, hb]]
        refine iff_of_true rfl (Or.inr ⟨by simp, ?_⟩)
        rw [Bool.and_eq_true] at hb
        exact hb
  | descPolarImages =>
      by_cases hb : (f.descriptors.hasKind TDescriptorType.descPolarImages &&
          o.descriptors.hasKind TDescriptorType.descPolarImages) = true
      · rw [show f.descriptorDistanceTo o TDescriptorType.descPolarImages norm =
            distByKind f o TDescriptorType.descPolarImages norm from by
              simp [CFeature.descriptorDistanceTo, hb]]
        refine iff_of_false (distByKind_ne_missing f o _ norm (by simp)) ?_
        rw [Bool.and_eq_true] at hb
        simp [hb.1, hb.2]
      · rw [show f.descriptorDistanceTo o TDescriptorType.descPolarImages norm =
            Except.error VisionErr.MissingDescriptor from by
              simp [CFeature.descriptorDistanceTo, hb]]
        refine iff_of_true rfl (Or.inr ⟨by simp, ?_⟩)
        rw [Bool.and_eq_true] at hb
        exact hb
  | descLogPolarImages =>
      by_cases hb : (f.descriptors.hasKind TDescriptorType.descLogPolarImages &&
          o.descriptors.hasKind TDescriptorType.descLogPolarImages) = true
      · rw [show f.descriptorDistanceTo o TDescriptorType.descLogPolarImages norm =
            distByKind f o TDescriptorType.descLogPolarImages norm from by
              simp [CFeature.descriptorDistanceTo, hb]]
        refine iff_of_false (distByKind_ne_missing f o _ norm (by simp)) ?_
        rw [Bool.and_eq_true] at hb
        simp [hb.1, hb.2]
      · rw [show f.descriptorDistanceTo o TDescriptorType.descLogPolarImages norm =
            Except.error VisionErr.MissingDescriptor from by
              simp [CFeature.descriptorDistanceTo, hb]]
        refine iff_of_true rfl (Or.inr ⟨by simp, ?_⟩)
        rw [Bool.and_eq_true] at hb
        exact hb

/-- Concrete instance of C3: requesting SIFT when the other feature lacks it
fails with `MissingDescriptor`, as does requesting "any" on a feature with
zero descriptors. -/
theorem C3_missingDescriptor_witness :
    ({ sampleFeature 1 TFeatureType.featSIFT 0 0 with
        descriptors := { emptyDescriptors with SIFT := [1, 2] } } : CFeature).descriptorDistanceTo
      (sampleFeature 2 TFeatureType.featSIFT 0 0) TDescriptorType.descSIFT true =
      Except.error VisionErr.MissingDescriptor ∧
    (sampleFeature 1 TFeatureType.featKLT 0 0).descriptorDistanceTo
      (sampleFeature 2 TFeatureType.featKLT 0 0) TDescriptorType.descAny true =
      Except.error VisionErr.MissingDescriptor := by
  constructor
  · exact (C3_missingDescriptor_iff _ _ _ _).mpr
      (Or.inr ⟨by simp, fun hcon => by
        have := hcon.2
        simp [TDescriptors.hasKind, TDescriptors.hasDescriptorSIFT,
          sampleFeature, emptyDescriptors] at this⟩)
  · exact (C3_missingDescriptor_iff _ _ _ _).mpr
      (Or.inl ⟨rfl, rfl, rfl, rfl, rfl, rfl⟩)

/-! ## Claim C2 -/

/-- C2: when either feature's descriptor bundle carries the
no-rotation-search flag, the rotation-search distance (on both the polar and
the log-polar descriptors) degenerates to the single candidate shift `0` and
returns the zero-shift Euclidean distance with angle `0` — regardless of
whether a smaller distance would exist at some nonzero shift. -/
theorem C2_noRotationSearch_shortCircuit (f o : CFeature) (norm : Bool)
    (hflag : (f.descriptors.noRotationSearch || o.descriptors.noRotationSearch) = true)
    (hr : matRows f.descriptors.PolarImg = matRows o.descriptors.PolarImg)
    (hc : matCols f.descriptors.PolarImg = matCols o.descriptors.PolarImg)
    (hrL : matRows f.descriptors.LogPolarImg = matRows o.descriptors.LogPolarImg)
    (hcL : matCols f.descriptors.LogPolarImg = matCols o.descriptors.LogPolarImg) :
    f.descriptorPolarImgDistanceTo o norm =
      Except.ok
        (Real.sqrt ((shiftDistSq f.descriptors.PolarImg o.descriptors.PolarImg 0 : ℚ) : ℝ) /
           polarNormFactor f.descriptors.PolarImg norm, 0) ∧
    f.descriptorLogPolarImgDistanceTo o norm =
      Except.ok
        (Real.sqrt ((shiftDistSq f.descriptors.LogPolarImg o.descriptors.LogPolarImg 0 : ℚ) : ℝ) /
           polarNormFactor f.descriptors.LogPolarImg norm, 0) ∧
    polarShiftCandidates (matRows f.descriptors.PolarImg) true = [0] := by
  refine ⟨?_, ?_, rfl⟩
  · unfold CFeature.descriptorPolarImgDistanceTo
    rw [hflag]
    unfold internal_distanceBetweenPolarImages
    rw [if_pos ⟨hr, hc⟩, polarMinSearch_true]
    simp
  · unfold CFeature.descriptorLogPolarImgDistanceTo
    rw [hflag]
    unfold internal_distanceBetweenPolarImages
    rw [if_pos ⟨hrL, hcL⟩, polarMinSearch_true]
    simp

/-- A feature whose polar descriptor is `[[0], [1]]` with the no-rotation
flag set, used to witness C2. -/
def c2FeatureA : CFeature :=
  { sampleFeature 1 TFeatureType.featKLT 0 0 with
      descriptors :=
        { emptyDescriptors with PolarImg := [[0], [1]], noRotationSearch := true } }

/-- A feature whose polar descriptor is `[[1], [0]]`, used to witness C2. -/
def c2FeatureB : CFeature :=
  { sampleFeature 2 TFeatureType.featKLT 0 0 with
      descriptors := { emptyDescriptors with PolarImg := [[1], [0]] } }

/-- Concrete instance of C2: with the flag set on one side the reported
distance is the zero-shift distance, even though shift 1 gives the strictly
smaller distance 0 here. -/
theorem C2_noRotationSearch_shortCircuit_witness :
    c2FeatureA.descriptorPolarImgDistanceTo c2FeatureB true =
      Except.ok
        (Real.sqrt ((shiftDistSq c2FeatureA.descriptors.PolarImg
            c2FeatureB.descriptors.PolarImg 0 : ℚ) : ℝ) /
           polarNormFactor c2FeatureA.descriptors.PolarImg true, 0) ∧
    shiftDistSq c2FeatureA.descriptors.PolarImg c2FeatureB.descriptors.PolarImg 1 <
      shiftDistSq c2FeatureA.descriptors.PolarImg c2FeatureB.descriptors.PolarImg 0 := by
  constructor
  · exact (C2_noRotationSearch_shortCircuit c2FeatureA c2FeatureB true rfl rfl rfl rfl rfl).1
  · have h1 : shiftDistSq c2FeatureA.descriptors.PolarImg
        c2FeatureB.descriptors.PolarImg 1 = 0 := by
      simp [shiftDistSq, matRows, matCols, entry, rowGet, c2FeatureA, c2FeatureB,
        emptyDescriptors, sampleFeature, Finset.sum_range_succ]
    have h0 : shiftDistSq c2FeatureA.descriptors.PolarImg
        c2FeatureB.descriptors.PolarImg 0 = 2 := by
      simp [shiftDistSq, matRows, matCols, entry, rowGet, c2FeatureA, c2FeatureB,
        emptyDescriptors, sampleFeature, Finset.sum_range_succ]
      norm_num
    rw [h0, h1]
    norm_num

/-! ## Claim C1 -/

/-- The degenerate polar descriptor `[[1], [1]]`: both rows equal, so it is
its own circular shift by one row. -/
def cexPolar : Mat := [[1], [1]]

/-- Counterexample to C1 as stated: `cexPolar` is a copy of itself
circularly shifted by `k = 1` of its 2 rows (both rows are equal), yet the
rotation search reports angle `0`, not `k * 360 / numRows = 180`: with ties,
the first minimizing shift wins, so the claimed angle `k * 360 / numRows
(mod numRows)` is not always the one reported. -/
theorem C1_rotation_search_counterexample :
    (∀ i, i < 2 → rowGet cexPolar ((i + 1) % 2) = rowGet cexPolar i) ∧
    matRows cexPolar = 2 ∧
    (internal_distanceBetweenPolarImages cexPolar cexPolar false true).map Prod.snd =
      Except.ok 0 ∧
    (0 : ℚ) ≠ ((1 % 2 : ℕ) : ℚ) * 360 / 2 := by
  have hd0 : shiftDistSq cexPolar cexPolar 0 = 0 := by
    simp [shiftDistSq, matRows, matCols, entry, rowGet, cexPolar, Finset.sum_range_succ]
  have hd1 : shiftDistSq cexPolar cexPolar 1 = 0 := by
    simp [shiftDistSq, matRows, matCols, entry, rowGet, cexPolar, Finset.sum_range_succ]
  have hcand : polarShiftCandidates (matRows cexPolar) false = [0, 1] := rfl
  have hpms : polarMinSearch cexPolar cexPolar false = (0, 0) := by
    unfold polarMinSearch
    rw [hcand]
    simp [selectMinAux, hd0, hd1]
  refine ⟨by decide, rfl, ?_, by norm_num⟩
  unfold internal_distanceBetweenPolarImages
  rw [if_pos ⟨rfl, rfl⟩, hpms]
  simp [Except.map]

/-- C1 (amended): for matrices of equal shape with `n > 0` rows, the
rotation search returns the Euclidean distance at some shift `s < n`
achieving the minimum over all shifts, together with the angle
`s * 360 / n`; when `b` is a copy of `a` circularly shifted by `k` rows the
returned distance is `0`, and — provided the zero-distance shift is unique
(e.g. `a` is not invariant under any nontrivial cyclic row-shift) — the
reported angle is `(k mod n) * 360 / n`. -/
theorem C1_rotation_search (a b : Mat) (n : ℕ) (hn : 0 < n)
    (har : matRows a = n) (hbr : matRows b = n) (hc : matCols a = matCols b)
    (norm : Bool) :
    (∃ s, s < n ∧
      internal_distanceBetweenPolarImages a b false norm =
        Except.ok (Real.sqrt ((shiftDistSq a b s : ℚ) : ℝ) / polarNormFactor a norm,
          (s : ℚ) * 360 / (n : ℚ)) ∧
      ∀ t, t < n → shiftDistSq a b s ≤ shiftDistSq a b t) ∧
    (∀ k, (∀ i, i < n → rowGet b ((i + k) % n) = rowGet a i) →
      (∀ s, s < n → shiftDistSq a b s = 0 → s = k % n) →
      internal_distanceBetweenPolarImages a b false norm =
        Except.ok (0, ((k % n : ℕ) : ℚ) * 360 / (n : ℚ))) := by
  have hna : 0 < matRows a := by rw [har]; exact hn
  obtain ⟨⟨s0, hs0, he0⟩, hle0⟩ := polarMinSearch_false_spec a b hna
  have hshape : matRows a = matRows b ∧ matCols a = matCols b := ⟨har.trans hbr.symm, hc⟩
  have hint : internal_distanceBetweenPolarImages a b false norm =
      Except.ok (Real.sqrt ((shiftDistSq a b s0 : ℚ) : ℝ) / polarNormFactor a norm,
        (s0 : ℚ) * 360 / (n : ℚ)) := by
    unfold internal_distanceBetweenPolarImages
    rw [if_pos hshape, he0, har]
  constructor
  · refine ⟨s0, by rw [har] at hs0; exact hs0, hint, ?_⟩
    intro t ht
    have h := hle0 t (by rw [har]; exact ht)
    rw [he0] at h
    exact h
  · intro k hcopy huniq
    have hz : shiftDistSq a b (k % n) = 0 := shiftDistSq_eq_zero_of_copy a b n k har hcopy
    have hkn : k % n < matRows a := by rw [har]; exact Nat.mod_lt k hn
    have hle : shiftDistSq a b s0 ≤ 0 := by
      have h := hle0 (k % n) hkn
      rw [he0] at h
      rw [← hz]
      exact h
    have hs0z : shiftDistSq a b s0 = 0 := le_antisymm hle (shiftDistSq_nonneg a b s0)
    have hs0k : s0 = k % n := huniq s0 (by rw [har] at hs0; exact hs0) hs0z
    rw [hint, hs0k, hz]
    simp

/-- The polar descriptor `[[1], [2]]`, whose rows are pairwise distinct. -/
def c1MatA : Mat := [[1], [2]]

/-- `c1MatA` circularly shifted by one row. -/
def c1MatB : Mat := [[2], [1]]

/-- Concrete instance of C1 (amended): `c1MatB` is `c1MatA` circularly
shifted by `k = 1` of its 2 rows, the zero-distance shift is unique, and the
rotation search reports distance `0` at angle `(1 mod 2) * 360 / 2 = 180`. -/
theorem C1_rotation_search_witness :
    internal_distanceBetweenPolarImages c1MatA c1MatB false true =
      Except.ok (0, ((1 % 2 : ℕ) : ℚ) * 360 / (2 : ℚ)) := by
  refine (C1_rotation_search c1MatA c1MatB 2 (by norm_num) rfl rfl rfl true).2 1
    (by decide) ?_
  intro s hs h0
  interval_cases s
  · exfalso
    have h2 : shiftDistSq c1MatA c1MatB 0 = 2 := by
      simp [shiftDistSq, matRows, matCols, entry, rowGet, c1MatA, c1MatB,
        Finset.sum_range_succ]
      norm_num
    rw [h2] at h0
    norm_num at h0
  · rfl

/-! ## Claim C6 -/

theorem vecDistSq_swap (v1 v2 : List ℚ) (h : v1.length = v2.length) :
    vecDistSq v1 v2 = vecDistSq v2 v1 := by
  unfold vecDistSq
  rw [h]
  exact Finset.sum_congr rfl fun j _ => by ring

theorem descriptorVectorDistance_swap (v1 v2 : List ℚ) (h : v1.length = v2.length)
    (norm : Bool) :
    descriptorVectorDistance v1 v2 norm = descriptorVectorDistance v2 v1 norm := by
  unfold descriptorVectorDistance
  rw [if_pos h, if_pos h.symm, vecDistSq_swap v1 v2 h, h]

/-- The distance component of the rotation search is symmetric in the two
matrices (the minimizing shifts are modular inverses of each other, so the
two searches run over the same multiset of distances). -/
theorem internal_map_fst_swap (P Q : Mat) (n : ℕ) (hn : 0 < n)
    (hPr : matRows P = n) (hQr : matRows Q = n) (hc : matCols P = matCols Q)
    (dont norm : Bool) :
    (internal_distanceBetweenPolarImages P Q dont norm).map Prod.fst =
    (internal_distanceBetweenPolarImages Q P dont norm).map Prod.fst := by
  unfold internal_distanceBetweenPolarImages
  rw [if_pos ⟨hPr.trans hQr.symm, hc⟩, if_pos ⟨hQr.trans hPr.symm, hc.symm⟩]
  simp only [Except.map]
  have hmin : (polarMinSearch P Q dont).2 = (polarMinSearch Q P dont).2 := by
    cases dont with
    | false => exact polarMinSearch_snd_swap P Q n hn hPr hQr hc
    | true =>
        rw [polarMinSearch_true, polarMinSearch_true]
        simpa using shiftDistSq_zero_swap Q P n hn hQr hPr hc.symm
  have hnf : polarNormFactor P norm = polarNormFactor Q norm := by
    unfold polarNormFactor
    rw [hPr, hQr, hc]
  rw [hmin, hnf]

/-- Whether the two bundles' slots for a descriptor kind have matching
dimensions (vector lengths, or matrix shapes for the polar kinds). -/
def kindDimMatch (d1 d2 : TDescriptors) : TDescriptorType → Bool
  | .descAny => true
  | .descSIFT => d1.SIFT.length == d2.SIFT.length
  | .descSURF => d1.SURF.length == d2.SURF.length
  | .descSpinImages => d1.SpinImg.length == d2.SpinImg.length
  | .descPolarImages =>
      (matRows d1.PolarImg == matRows d2.PolarImg) &&
      (matCols d1.PolarImg == matCols d2.PolarImg)
  | .descLogPolarImages =>
      (matRows d1.LogPolarImg == matRows d2.LogPolarImg) &&
      (matCols d1.LogPolarImg == matCols d2.LogPolarImg)

/-- C6: for features that both have a given explicit descriptor kind present
with matching dimensions, `descriptorDistanceTo` is symmetric, including for
the polar and log-polar rotation-search metric. -/
theorem C6_descriptor_distance_symmetry (f o : CFeature) (k : TDescriptorType)
    (norm : Bool) (hk : k ≠ TDescriptorType.descAny)
    (hf : f.descriptors.hasKind k = true) (ho : o.descriptors.hasKind k = true)
    (hdim : kindDimMatch f.descriptors o.descriptors k = true) :
    f.descriptorDistanceTo o k norm = o.descriptorDistanceTo f k norm := by
  have hb1 : (f.descriptors.hasKind k && o.descriptors.hasKind k) = true := by
    rw [hf, ho]
    rfl
  have hb2 : (o.descriptors.hasKind k && f.descriptors.hasKind k) = true := by
    rw [hf, ho]
    rfl
  cases k with
  | descAny => exact absurd rfl hk
  | descSIFT =>
      rw [show f.descriptorDistanceTo o TDescriptorType.descSIFT norm =
            distByKind f o TDescriptorType.descSIFT norm from by
            simp [CFeature.descriptorDistanceTo, hb1],
          show o.descriptorDistanceTo f TDescriptorType.descSIFT norm =
            distByKind o f TDescriptorType.descSIFT norm from by
            simp [CFeature.descriptorDistanceTo, hb2]]
      unfold distByKind CFeature.descriptorSIFTDistanceTo
      apply descriptorVectorDistance_swap
      simp only [kindDimMatch, beq_iff_eq] at hdim
      unfold TDescriptors.siftQ
      rw [List.length_map, List.length_map, hdim]
  | descSURF =>
      rw [show f.descriptorDistanceTo o TDescriptorType.descSURF norm =
            distByKind f o TDescriptorType.descSURF norm from by
            simp [CFeature.descriptorDistanceTo, hb1],
          show o.descriptorDistanceTo f TDescriptorType.descSURF norm =
            distByKind o f TDescriptorType.descSURF norm from by
            simp [CFeature.descriptorDistanceTo, hb2]]
      unfold distByKind CFeature.descriptorSURFDistanceTo
      apply descriptorVectorDistance_swap
      simp only [kindDimMatch, beq_iff_eq] at hdim
      exact hdim
  | descSpinImages =>
      rw [show f.descriptorDistanceTo o TDescriptorType.descSpinImages norm =
            distByKind f o TDescriptorType.descSpinImages norm from by
            simp [CFeature.descriptorDistanceTo, hb1],
          show o.descriptorDistanceTo f TDescriptorType.descSpinImages norm =
            distByKind o f TDescriptorType.descSpinImages norm from by
            simp [CFeature.descriptorDistanceTo, hb2]]
      unfold distByKind CFeature.descriptorSpinImgDistanceTo
      apply descriptorVectorDistance_swap
      simp only [kindDimMatch, beq_iff_eq] at hdim
      exact hdim
  | descPolarImages =>
      rw [show f.descriptorDistanceTo o TDescriptorType.descPolarImages norm =
            distByKind f o TDescriptorType.descPolarImages norm from by
            simp [CFeature.descriptorDistanceTo, hb1],
          show o.descriptorDistanceTo f TDescriptorType.descPolarImages norm =
            distByKind o f TDescriptorType.descPolarImages norm from by
            simp [CFeature.descriptorDistanceTo, hb2]]
      unfold distByKind CFeature.descriptorPolarImgDistanceTo
      simp only [kindDimMatch, Bool.and_eq_true, beq_iff_eq] at hdim
      have hnP : 0 < matRows f.descriptors.PolarImg := by
        have h := hf
        simp only [TDescriptors.hasKind, TDescriptors.hasDescriptorPolarImg,
          decide_eq_true_eq] at h
        exact h
      rw [Bool.or_comm o.descriptors.noRotationSearch f.descriptors.noRotationSearch]
      exact internal_map_fst_swap _ _ (matRows f.descriptors.PolarImg) hnP rfl
        hdim.1.symm hdim.2 _ norm
  | descLogPolarImages =>
      rw [show f.descriptorDistanceTo o TDescriptorType.descLogPolarImages norm =
            distByKind f o TDescriptorType.descLogPolarImages norm from by
            simp [CFeature.descriptorDistanceTo, hb1],
          show o.descriptorDistanceTo f TDescriptorType.descLogPolarImages norm =
            distByKind o f TDescriptorType.descLogPolarImages norm from by
            simp [CFeature.descriptorDistanceTo, hb2]]
      unfold distByKind CFeature.descriptorLogPolarImgDistanceTo
      simp only [kindDimMatch, Bool.and_eq_true, beq_iff_eq] at hdim
      have hnP : 0 < matRows f.descriptors.LogPolarImg := by
        have h := hf
        simp only [TDescriptors.hasKind, TDescriptors.hasDescriptorLogPolarImg,
          decide_eq_true_eq] at h
        exact h
      rw [Bool.or_comm o.descriptors.noRotationSearch f.descriptors.noRotationSearch]
      exact internal_map_fst_swap _ _ (matRows f.descriptors.LogPolarImg) hnP rfl
        hdim.1.symm hdim.2 _ norm

/-- A feature holding only the SIFT descriptor `[1, 2]`, used to witness C6. -/
def c6FeatureA : CFeature :=
  { sampleFeature 1 TFeatureType.featSIFT 0 0 with
      descriptors := { emptyDescriptors with SIFT := [1, 2] } }

/-- A feature holding only the SIFT descriptor `[3, 5]`, used to witness C6. -/
def c6FeatureB : CFeature :=
  { sampleFeature 2 TFeatureType.featSIFT 0 0 with
      descriptors := { emptyDescriptors with SIFT := [3, 5] } }

/-- Concrete instance of C6: symmetry of the SIFT distance on two features
carrying two-byte SIFT descriptors. -/
theorem C6_descriptor_distance_symmetry_witness :
    c6FeatureA.descriptorDistanceTo c6FeatureB TDescriptorType.descSIFT true =
      c6FeatureB.descriptorDistanceTo c6FeatureA TDescriptorType.descSIFT true :=
  C6_descriptor_distance_symmetry c6FeatureA c6FeatureB TDescriptorType.descSIFT true
    (by decide) (by decide) (by decide) (by decide)

/-! ## Claim C4 -/

theorem featDistSq_nonneg (f : CFeature) (x y : ℚ) : 0 ≤ featDistSq f x y :=
  add_nonneg (sq_nonneg _) (sq_nonneg _)

/-- The Euclidean radius test on a nonnegative squared distance, expressed
in rationals: `sqrt q ≤ c` iff `0 ≤ c` and `q ≤ c ^ 2`. -/
theorem ratSqrt_le_iff (q c : ℚ) (hq : 0 ≤ q) :
    Real.sqrt ((q : ℚ) : ℝ) ≤ ((c : ℚ) : ℝ) ↔ (0 ≤ c ∧ q ≤ c ^ 2) := by
  constructor
  · intro h
    have hc : (0 : ℝ) ≤ ((c : ℚ) : ℝ) := le_trans (Real.sqrt_nonneg _) h
    refine ⟨by exact_mod_cast hc, ?_⟩
    have hq' : (0 : ℝ) ≤ ((q : ℚ) : ℝ) := by exact_mod_cast hq
    have h2 : ((q : ℚ) : ℝ) ≤ ((c : ℚ) : ℝ) ^ 2 :=
      calc ((q : ℚ) : ℝ) = Real.sqrt ((q : ℚ) : ℝ) ^ 2 := (Real.sq_sqrt hq').symm
        _ ≤ ((c : ℚ) : ℝ) ^ 2 := pow_le_pow_left₀ (Real.sqrt_nonneg _) h 2
    exact_mod_cast h2
  · rintro ⟨hc, hqc⟩
    have h1 : ((q : ℚ) : ℝ) ≤ ((c : ℚ) : ℝ) ^ 2 := by exact_mod_cast hqc
    have h2 : Real.sqrt ((q : ℚ) : ℝ) ≤ Real.sqrt (((c : ℚ) : ℝ) ^ 2) :=
      Real.sqrt_le_sqrt h1
    rwa [Real.sqrt_sq (by exact_mod_cast hc)] at h2

theorem nearestCore_eq_none_iff (feats : List CFeature) (x y : ℚ) :
    nearestCore feats x y = none ↔ feats = [] := by
  cases feats <;> simp [nearestCore]

/-- The feature found by `nearestCore` belongs to the collection, carries
its own squared distance, and minimizes the squared distance over the
collection. -/
theorem nearestCore_some_spec (feats : List CFeature) (x y : ℚ) (f : CFeature) (dsq : ℚ)
    (h : nearestCore feats x y = some (f, dsq)) :
    f ∈ feats ∧ dsq = featDistSq f x y ∧ ∀ g ∈ feats, dsq ≤ featDistSq g x y := by
  cases feats with
  | nil => simp [nearestCore] at h
  | cons f0 rest =>
    have hres : selectMinAux (f0, featDistSq f0 x y)
        (rest.map (fun g => (g, featDistSq g x y))) = (f, dsq) := by
      unfold nearestCore at h
      simp only [List.map_cons, Option.some.injEq] at h
      exact h
    have hkey : f ∈ f0 :: rest ∧ dsq = featDistSq f x y := by
      rcases selectMinAux_mem (rest.map (fun g => (g, featDistSq g x y)))
          (f0, featDistSq f0 x y) with h1 | h1
      · rw [hres] at h1
        have hf : f = f0 := congrArg Prod.fst h1
        have hd : dsq = featDistSq f0 x y := congrArg Prod.snd h1
        exact ⟨by rw [hf]; exact List.mem_cons_self _ _, by rw [hf]; exact hd⟩
      · rw [hres] at h1
        obtain ⟨g, hg, hge⟩ := List.mem_map.mp h1
        have hf : g = f := congrArg Prod.fst hge
        have hd : featDistSq g x y = dsq := congrArg Prod.snd hge
        exact ⟨by rw [← hf]; exact List.mem_cons_of_mem _ hg, by rw [← hf]; exact hd.symm⟩
    refine ⟨hkey.1, hkey.2, ?_⟩
    intro g hg
    rcases List.mem_cons.mp hg with h1 | h1
    · have h2 := selectMinAux_snd_le_best
        (rest.map (fun g => (g, featDistSq g x y))) (f0, featDistSq f0 x y)
      rw [hres] at h2
      rw [h1]
      exact h2
    · have hmem : (g, featDistSq g x y) ∈ rest.map (fun g => (g, featDistSq g x y)) :=
        List.mem_map.mpr ⟨g, h1, rfl⟩
      have h2 := selectMinAux_snd_le_mem
        (rest.map (fun g => (g, featDistSq g x y))) (f0, featDistSq f0 x y) _ hmem
      rw [hres] at h2
      exact h2

theorem nearest_eq_of_core_none (l : CFeatureList) (x y md : ℚ)
    (hcore : nearestCore l.m_feats x y = none) :
    l.nearest x y md = (none, ((md : ℚ) : ℝ)) := by
  unfold CFeatureList.nearest
  rw [hcore]

theorem nearest_eq_of_core_some (l : CFeatureList) (x y md : ℚ) (f0 : CFeature) (dsq : ℚ)
    (hcore : nearestCore l.m_feats x y = some (f0, dsq)) :
    l.nearest x y md =
      if 0 ≤ md ∧ dsq ≤ md ^ 2 then (some f0, Real.sqrt ((dsq : ℚ) : ℝ))
      else (none, ((md : ℚ) : ℝ)) := by
  unfold CFeatureList.nearest
  rw [hcore]

/-- C4: `nearest (x, y, maxDist)` returns a contained feature closest to the
query point whenever one lies within the input radius, and then reports the
actual Euclidean distance in place of `maxDist`; it reports "not found" with
`maxDist` unchanged exactly when no contained feature lies within the input
radius. -/
theorem C4_nearest (l : CFeatureList) (x y max_dist : ℚ) :
    (∀ f r, l.nearest x y max_dist = (some f, r) →
      f ∈ l.m_feats ∧
      (∀ g ∈ l.m_feats, featDistSq f x y ≤ featDistSq g x y) ∧
      r = Real.sqrt ((featDistSq f x y : ℚ) : ℝ) ∧
      r ≤ ((max_dist : ℚ) : ℝ)) ∧
    (l.nearest x y max_dist = (none, ((max_dist : ℚ) : ℝ)) ↔
      ∀ g ∈ l.m_feats,
        ¬(Real.sqrt ((featDistSq g x y : ℚ) : ℝ) ≤ ((max_dist : ℚ) : ℝ))) := by
  constructor
  · intro f r h
    cases hcore : nearestCore l.m_feats x y with
    | none =>
        rw [nearest_eq_of_core_none l x y max_dist hcore] at h
        exact absurd (congrArg Prod.fst h) (by simp)
    | some p =>
        obtain ⟨f0, dsq⟩ := p
        obtain ⟨hmem, hdsq, hmin⟩ := nearestCore_some_spec _ _ _ _ _ hcore
        rw [nearest_eq_of_core_some l x y max_dist f0 dsq hcore] at h
        by_cases hcond : 0 ≤ max_dist ∧ dsq ≤ max_dist ^ 2
        · rw [if_pos hcond] at h
          have hf : f0 = f := Option.some.inj (congrArg Prod.fst h)
          have hr : Real.sqrt ((dsq : ℚ) : ℝ) = r := congrArg Prod.snd h
          subst hf
          have hq : 0 ≤ dsq := by rw [hdsq]; exact featDistSq_nonneg f0 x y
          refine ⟨hmem, ?_, ?_, ?_⟩
          · intro g hg
            rw [← hdsq]
            exact hmin g hg
          · rw [← hr, hdsq]
          · rw [← hr]
            exact (ratSqrt_le_iff dsq max_dist hq).mpr hcond
        · rw [if_neg hcond] at h
          exact absurd (congrArg Prod.fst h) (by simp)
  · constructor
    · intro h g hg
      cases hcore : nearestCore l.m_feats x y with
      | none =>
          have hnil : l.m_feats = [] := (nearestCore_eq_none_iff _ _ _).mp hcore
          rw [hnil] at hg
          exact absurd hg (List.not_mem_nil g)
      | some p =>
          obtain ⟨f0, dsq⟩ := p
          obtain ⟨hmem, hdsq, hmin⟩ := nearestCore_some_spec _ _ _ _ _ hcore
          rw [nearest_eq_of_core_some l x y max_dist f0 dsq hcore] at h
          by_cases hcond : 0 ≤ max_dist ∧ dsq ≤ max_dist ^ 2
          · rw [if_pos hcond] at h
            exact absurd (congrArg Prod.fst h) (by simp)
          · intro hcon
            apply hcond
            have h1 := (ratSqrt_le_iff _ _ (featDistSq_nonneg g x y)).mp hcon
            refine ⟨h1.1, ?_⟩
            calc dsq ≤ featDistSq g x y := hmin g hg
              _ ≤ max_dist ^ 2 := h1.2
    · intro h
      cases hcore : nearestCore l.m_feats x y with
      | none => exact nearest_eq_of_core_none l x y max_dist hcore
      | some p =>
          obtain ⟨f0, dsq⟩ := p
          obtain ⟨hmem, hdsq, hmin⟩ := nearestCore_some_spec _ _ _ _ _ hcore
          have hq : 0 ≤ dsq := by rw [hdsq]; exact featDistSq_nonneg f0 x y
          have hncond : ¬(0 ≤ max_dist ∧ dsq ≤ max_dist ^ 2) := by
            intro hcond
            apply h f0 hmem
            rw [← hdsq]
            exact (ratSqrt_le_iff dsq max_dist hq).mpr hcond
          rw [nearest_eq_of_core_some l x y max_dist f0 dsq hcore, if_neg hncond]

/-- The feature at `(0, 0)` with id 1 from the spec's nearest-neighbor test. -/
def nnF1 : CFeature := sampleFeature 1 TFeatureType.featKLT 0 0

/-- The feature at `(10, 10)` with id 2 from the spec's nearest-neighbor test. -/
def nnF2 : CFeature := sampleFeature 2 TFeatureType.featKLT 10 10

/-- The two-feature collection of the spec's nearest-neighbor test. -/
def nnList : CFeatureList := ⟨[nnF1, nnF2]⟩

/-- Concrete instance of C4, the spec's test vectors: `nearest (20, 20)` with
radius 1 finds nothing and leaves the radius unchanged, while
`nearest (0, 0)` with radius 5 returns the feature with id 1 at distance 0. -/
theorem C4_nearest_witness :
    nnList.nearest 20 20 1 = (none, ((1 : ℚ) : ℝ)) ∧
    nnList.nearest 0 0 5 = (some nnF1, 0) := by
  constructor
  · refine (C4_nearest nnList 20 20 1).2.mpr ?_
    intro g hg hcon
    have h1 := (ratSqrt_le_iff _ _ (featDistSq_nonneg g 20 20)).mp hcon
    have h2 := h1.2
    rcases List.mem_cons.mp hg with hgf | hgr
    · subst hgf
      rw [show featDistSq nnF1 20 20 = 800 from by
        norm_num [featDistSq, nnF1, sampleFeature]] at h2
      norm_num at h2
    · rcases List.mem_cons.mp hgr with hgf | hgn
      · subst hgf
        rw [show featDistSq nnF2 20 20 = 200 from by
          norm_num [featDistSq, nnF2, sampleFeature]] at h2
        norm_num at h2
      · exact absurd hgn (List.not_mem_nil g)
  · have hd1 : featDistSq nnF1 0 0 = 0 := by norm_num [featDistSq, nnF1, sampleFeature]
    have hd2 : featDistSq nnF2 0 0 = 200 := by norm_num [featDistSq, nnF2, sampleFeature]
    have hcore : nearestCore nnList.m_feats 0 0 = some (nnF1, 0) := by
      unfold nearestCore nnList
      simp only [List.map_cons, List.map_nil, hd1, hd2]
      rw [selectMinAux_cons]
      norm_num [selectMinAux_nil]
    rw [nearest_eq_of_core_some nnList 0 0 5 nnF1 0 hcore, if_pos (by norm_num)]
    norm_num

end MRPTVision
